import Mathlib

/-!
Verification of the retape_ai voicemail greeting-end detector.

Shallow embedding conventions:
* Go `time.Duration` values (int64 nanoseconds) are modelled as rationals
  measured in milliseconds; all engine arithmetic (sums, differences,
  comparisons, the single 0.9 multiplication) maps exactly.
* The per-chunk DSP front ends (`calculateRMS`, `analyzeForBeep`) consume the
  raw samples and produce a handful of numbers consumed by the detector state
  machines.  A chunk is therefore modelled by its timestamp, duration, and the
  outputs of those two analyses (rms; dominant frequency, amplitude, tonality
  flag; whether the chunk had fewer than 64 samples).  The FFT itself is not
  re-proved; every claim under verification is about the state machines and
  the fusion engine downstream of it.
* The WAV container code (`internal/audio/streamer.go`) is modelled at the
  byte level, with the file contents as a list of byte values.
-/

/-- Mirrors `config.Config` (internal/config/config.go).  Durations in ms. -/
structure Config where
  chunkDuration : ℚ
  sampleRate : ℤ
  beepMinFreq : ℚ
  beepMaxFreq : ℚ
  beepMinDuration : ℚ
  beepMinAmplitude : ℚ
  silenceThreshold : ℚ
  silenceMinDur : ℚ
  beepWaitTimeout : ℚ
  enableSTT : Bool
  endPhrases : List String
deriving DecidableEq, Repr

/-- Mirrors `config.DefaultConfig`.  `enableSTT` is `apiKey != ""` in Go; we
model the run without a Deepgram API key, so it is false. -/
def defaultConfig : Config where
  chunkDuration := 20
  sampleRate := 16000
  beepMinFreq := 600
  beepMaxFreq := 2500
  beepMinDuration := 300
  beepMinAmplitude := 2/100
  silenceThreshold := 1/100
  silenceMinDur := 500
  beepWaitTimeout := 2000
  enableSTT := false
  endPhrases :=
    ["after the beep", "after the tone", "leave a message", "leave your message",
     "leave your name", "leave your number", "record your message", "at the tone",
     "at the beep", "please leave", "brief message", "please leave a message",
     "you may leave", "record a message", "your message after"]

/-- An `audio.AudioChunk` abstracted by the outputs of the DSP front ends:
`rms` is `calculateRMS(chunk.Samples)`; `freq`, `amp`, `isTone` are the three
results of `BeepDetector.analyzeForBeep(chunk.Samples)`; `short` holds iff
`len(chunk.Samples) < 64`. -/
structure AChunk where
  timestamp : ℚ
  duration : ℚ
  rms : ℚ
  short : Bool
  freq : ℚ
  amp : ℚ
  isTone : Bool
deriving DecidableEq, Repr

/-! ## Beep detector (src/unnamed/part_000, `BeepDetector`) -/

/-- Mirrors `detector.BeepEvent`. -/
structure BeepEvent where
  startTime : ℚ
  endTime : ℚ
  frequency : ℚ
  amplitude : ℚ
deriving DecidableEq, Repr

/-- Mirrors the mutable fields of `detector.BeepDetector`. -/
structure BeepState where
  beepStartTime : ℚ
  beepActive : Bool
  beepFrequency : ℚ
  beepAmplitude : ℚ
  consecutiveHits : ℤ
  minHits : ℤ
  allBeeps : List BeepEvent
deriving DecidableEq, Repr

/-- The `minHits` computation in `NewBeepDetector`:
`minHits := int(150*time.Millisecond / cfg.ChunkDuration); if minHits < 5 { minHits = 5 }`.
Go duration division is truncating integer division; for a positive chunk
duration that is the floor of the exact quotient. -/
def minHitsOf (chunkDuration : ℚ) : ℤ :=
  let m : ℤ := ⌊(150 : ℚ) / chunkDuration⌋
  if m < 5 then 5 else m

/-- Mirrors `detector.NewBeepDetector`. -/
def newBeepDetector (cfg : Config) : BeepState where
  beepStartTime := 0
  beepActive := false
  beepFrequency := 0
  beepAmplitude := 0
  consecutiveHits := 0
  minHits := minHitsOf cfg.chunkDuration
  allBeeps := []

/-- Mirrors `BeepDetector.reset` (does not clear `beepStartTime`). -/
def beepReset (st : BeepState) : BeepState :=
  { st with beepActive := false, consecutiveHits := 0,
            beepFrequency := 0, beepAmplitude := 0 }

/-- The raw beep criteria in `BeepDetector.Process`: frequency in the
configured band, amplitude at least the floor, and tonal. -/
def beepCand (cfg : Config) (c : AChunk) : Bool :=
  decide (cfg.beepMinFreq ≤ c.freq) && decide (c.freq ≤ cfg.beepMaxFreq) &&
  decide (cfg.beepMinAmplitude ≤ c.amp) && c.isTone

/-- Mirrors `BeepDetector.Process`.  Returns the new state and the emitted
event, if any. -/
def beepProcess (cfg : Config) (st : BeepState) (c : AChunk) :
    BeepState × Option BeepEvent :=
  if c.short then (st, none)
  else
    let isBeepLike0 : Bool := beepCand cfg c
    let isBeepLike : Bool :=
      if isBeepLike0 && st.beepActive then
        if |c.freq - st.beepFrequency| / st.beepFrequency > 15/100 then false
        else isBeepLike0
      else isBeepLike0
    if isBeepLike then
      let st1 :=
        if st.beepActive then st
        else { st with beepStartTime := c.timestamp, beepFrequency := c.freq,
                       beepAmplitude := c.amp }
      ({ st1 with consecutiveHits := st1.consecutiveHits + 1, beepActive := true,
                  beepFrequency := st1.beepFrequency * (8/10) + c.freq * (2/10),
                  beepAmplitude := max st1.beepAmplitude c.amp }, none)
    else
      if st.beepActive ∧ st.minHits ≤ st.consecutiveHits then
        let ev : BeepEvent :=
          { startTime := st.beepStartTime, endTime := c.timestamp,
            frequency := st.beepFrequency, amplitude := st.beepAmplitude }
        (beepReset { st with allBeeps := st.allBeeps ++ [ev] }, some ev)
      else (beepReset st, none)

/-- Feed a list of chunks through `beepProcess`, collecting emitted events. -/
def beepRun (cfg : Config) (st : BeepState) : List AChunk → BeepState × List BeepEvent
  | [] => (st, [])
  | c :: rest =>
    let (st1, ev) := beepProcess cfg st c
    let (st2, evs) := beepRun cfg st1 rest
    (st2, (ev.toList) ++ evs)

/-! ## Silence detector (src/unnamed/part_000, `SilenceDetector`) -/

/-- Mirrors `detector.SilenceEvent`. -/
structure SilenceEvent where
  startTime : ℚ
  endTime : ℚ
  duration : ℚ
  confirmed : Bool
deriving DecidableEq, Repr

/-- Mirrors the mutable fields of `detector.SilenceDetector`.
`speechThreshold` is set once at construction to 3 x SilenceThreshold. -/
structure SilenceState where
  silenceStart : ℚ
  inSilence : Bool
  hadSpeech : Bool
  speechThreshold : ℚ
  potentialEndTime : ℚ
  confirmedEnd : Bool
  lastSpeechTime : ℚ
  speechAfterSilence : ℤ
deriving DecidableEq, Repr

/-- Mirrors `detector.NewSilenceDetector`. -/
def newSilenceDetector (cfg : Config) : SilenceState where
  silenceStart := 0
  inSilence := false
  hadSpeech := false
  speechThreshold := cfg.silenceThreshold * 3
  potentialEndTime := 0
  confirmedEnd := false
  lastSpeechTime := 0
  speechAfterSilence := 0

/-- Mirrors `SilenceDetector.Process`. -/
def silenceProcess (cfg : Config) (st : SilenceState) (c : AChunk) :
    SilenceState × Option SilenceEvent :=
  let rms := c.rms
  let isSilent := rms < cfg.silenceThreshold
  let isSpeech := st.speechThreshold ≤ rms
  let currentTime := c.timestamp + c.duration
  let st :=
    if isSpeech then
      { st with hadSpeech := true, lastSpeechTime := currentTime,
                speechAfterSilence :=
                  if 0 < st.potentialEndTime ∧ ¬st.confirmedEnd then
                    st.speechAfterSilence + 1
                  else st.speechAfterSilence }
    else st
  if isSilent then
    if ¬st.inSilence then
      ({ st with silenceStart := c.timestamp, inSilence := true }, none)
    else
      let elapsed := currentTime - st.silenceStart
      if st.hadSpeech ∧ cfg.silenceMinDur ≤ elapsed then
        let st :=
          if st.potentialEndTime = 0 then
            { st with potentialEndTime := st.silenceStart }
          else st
        let st :=
          if (2000 : ℚ) ≤ currentTime - st.potentialEndTime then
            { st with confirmedEnd := true }
          else st
        (st, some { startTime := st.silenceStart, endTime := currentTime,
                    duration := elapsed, confirmed := st.confirmedEnd })
      else (st, none)
  else
    let st :=
      if st.inSilence ∧ currentTime - st.silenceStart < 2000 then
        { st with potentialEndTime := 0, confirmedEnd := false,
                  speechAfterSilence := 0 }
      else st
    ({ st with inSilence := false }, none)

/-- Fold a chunk list through the silence detector, keeping only the state. -/
def silenceRunSt (cfg : Config) (st : SilenceState) : List AChunk → SilenceState
  | [] => st
  | c :: rest => silenceRunSt cfg (silenceProcess cfg st c).1 rest

/-! ## Phrase detector (internal/detector/phrase.go, `PhraseDetector`) -/

/-- Character-list version of Go `strings.ToLower` as applied to ASCII
phrase text. -/
def lowerChars (s : List Char) : List Char := s.map Char.toLower

/-- Does the first list occur at the head of the second? -/
def startsW : List Char → List Char → Bool
  | [], _ => true
  | _ :: _, [] => false
  | a :: as, b :: bs => a == b && startsW as bs

/-- Substring test: does `needle` occur contiguously inside `hay`?  This is
what the compiled pattern `(?i)` + `regexp.QuoteMeta(phrase)` tests on the
lower-cased text: a case-insensitive literal occurrence. -/
def hasSub (needle : List Char) : List Char → Bool
  | [] => startsW needle []
  | b :: bs => startsW needle (b :: bs) || hasSub needle bs

/-- `pattern.MatchString(text)` for the pattern built from `phrase` in
`NewPhraseDetector`: case-insensitive literal match. -/
def phraseMatches (phrase : String) (text : String) : Bool :=
  hasSub (lowerChars phrase.data) (lowerChars text.data)

/-- Mirrors `detector.PhraseEvent`. -/
structure PhraseEvent where
  timestamp : ℚ
  phrase : String
  fullText : String
deriving DecidableEq, Repr

/-- First configured phrase (in `cfg.EndPhrases` order) matching `text`. -/
def firstMatch (phrases : List String) (text : String) : Option String :=
  phrases.find? (fun p => phraseMatches p text)

/-- Mirrors `PhraseDetector.Process`: state is the `detected` field.  The Go
code lower-cases the text, scans the patterns in order, and on the first
match stores and returns a new event; there is no earlier-match guard. -/
def phraseProcess (cfg : Config) (detected : Option PhraseEvent)
    (text : String) (timestamp : ℚ) : Option PhraseEvent × Option PhraseEvent :=
  let lowered := String.mk (lowerChars text.data)
  match firstMatch cfg.endPhrases lowered with
  | some p =>
    let ev : PhraseEvent := { timestamp := timestamp, phrase := p, fullText := lowered }
    (some ev, some ev)
  | none => (detected, none)

/-! ## Decision engine (internal/detector/phrase.go, package `engine`) -/

/-- Mirrors `engine.Signal`.  The numeric `fmt.Sprintf` payloads inside
`Details` are abstracted to fixed tag strings; no claim depends on them. -/
structure Signal where
  type : String
  timestamp : ℚ
  details : String
deriving DecidableEq, Repr

/-- Mirrors `engine.Result`. -/
structure EResult where
  recommendedDropTime : ℚ
  reason : String
  signals : List Signal
  transcript : String
  decisionMadeAt : ℚ
  deadAir : ℚ
deriving DecidableEq, Repr

/-- `PostBeepVerifyDuration = 500 * time.Millisecond`. -/
def postBeepVerifyDuration : ℚ := 500

/-- Mirrors the state fields of `engine.DecisionEngine` (the detectors it
owns plus its own fusion fields). -/
structure EngState where
  beep : BeepState
  silence : SilenceState
  phraseDetected : Option PhraseEvent
  signals : List Signal
  transcript : String
  beepDetected : Option BeepEvent
  beepConfirmedAt : ℚ
  phraseFound : Bool
  expectsBeep : Bool
  phraseTime : ℚ
  firstSilenceAt : ℚ
  decisionMade : Bool
  decisionResult : Option EResult
deriving DecidableEq, Repr

/-- Mirrors `engine.NewDecisionEngine`. -/
def initEngState (cfg : Config) : EngState where
  beep := newBeepDetector cfg
  silence := newSilenceDetector cfg
  phraseDetected := none
  signals := []
  transcript := ""
  beepDetected := none
  beepConfirmedAt := 0
  phraseFound := false
  expectsBeep := false
  phraseTime := 0
  firstSilenceAt := 0
  decisionMade := false
  decisionResult := none

/-- Mirrors `DecisionEngine.processChunk` (the STT forwarding at the end is a
network side effect with no influence on engine state and is not modelled). -/
def processChunk (cfg : Config) (st : EngState) (c : AChunk) : EngState :=
  let (bst, bev) := beepProcess cfg st.beep c
  let st := { st with beep := bst }
  let st :=
    match bev with
    | some ev =>
      let sig : Signal :=
        { type := "beep", timestamp := ev.endTime, details := "freq, duration" }
      { st with beepDetected := some ev, beepConfirmedAt := 0,
                signals := st.signals ++ [sig] }
    | none => st
  let (sst, sev) := silenceProcess cfg st.silence c
  let st := { st with silence := sst }
  let st :=
    match sev with
    | some ev =>
      if ev.confirmed = true ∧ st.firstSilenceAt = 0 then
        let sig : Signal :=
          { type := "silence", timestamp := ev.startTime,
            details := "confirmed silence" }
        { st with firstSilenceAt := ev.startTime, signals := st.signals ++ [sig] }
      else st
    | none => st
  match st.beepDetected with
  | some b =>
    if st.beepConfirmedAt = 0 then
      let timeSinceBeep := c.timestamp - b.endTime
      if 0 < timeSinceBeep ∧ timeSinceBeep < postBeepVerifyDuration then
        if sev = none ∧ sst.inSilence = false then
          let note : Signal :=
            { type := "beep", timestamp := c.timestamp,
              details := "intermediate beep - speech resumed, ignoring" }
          { st with signals := st.signals ++ [note], beepDetected := none }
        else st
      else if postBeepVerifyDuration ≤ timeSinceBeep then
        { st with beepConfirmedAt := c.timestamp }
      else st
    else st
  | none => st

/-- Mirrors `DecisionEngine.makeDecision`. -/
def makeDecision (st : EngState) (dropTime : ℚ) (reason : String)
    (decisionTime : ℚ) : EngState :=
  let deadAir : ℚ :=
    if 0 < st.firstSilenceAt then decisionTime - st.firstSilenceAt
    else
      match st.beepDetected with
      | some b => decisionTime - b.endTime
      | none => 0
  let res : EResult :=
    { recommendedDropTime := dropTime, reason := reason,
      signals := st.signals, transcript := st.transcript,
      decisionMadeAt := decisionTime, deadAir := deadAir }
  { st with decisionMade := true, decisionResult := some res }

def reasonBeepConfirmed : String :=
  "Beep detected and confirmed (no speech resumed) - dropping after beep"

def reasonPhraseSilence : String :=
  "End phrase + silence detected (no beep expected) - dropping"

def reasonPhraseBeepTimeout : String :=
  "Phrase indicated beep expected, waited 5s - dropping"

def reasonSilenceTimeout : String :=
  "Confirmed silence, waited for beep - dropping"

def reasonBeepAtEnd : String :=
  "Beep detected at end - dropping after beep"

def reasonSilenceNoBeep : String :=
  "Silence after speech - no beep detected"

def reasonPhraseOnly : String :=
  "End phrase detected"

def reasonFallback : String :=
  "No clear signal - using fallback (90% of duration)"

/-- Mirrors `DecisionEngine.checkForDecision`: the priority table, first
match wins; each rule falls through when its inner timing guard fails. -/
def checkForDecision (cfg : Config) (st : EngState) (currentTime : ℚ) : EngState :=
  let rule1 :=
    match st.beepDetected with
    | some b => if 0 < st.beepConfirmedAt then some (b.endTime + 50) else none
    | none => none
  match rule1 with
  | some drop => makeDecision st drop reasonBeepConfirmed currentTime
  | none =>
    if st.phraseFound = true ∧ 0 < st.firstSilenceAt ∧ st.expectsBeep = false ∧
        (1000 : ℚ) ≤ currentTime - st.firstSilenceAt then
      makeDecision st (st.firstSilenceAt + 200) reasonPhraseSilence currentTime
    else if st.expectsBeep = true ∧ 0 < st.firstSilenceAt ∧
        (5000 : ℚ) ≤ currentTime - st.firstSilenceAt then
      makeDecision st (st.firstSilenceAt + 200) reasonPhraseBeepTimeout currentTime
    else if 0 < st.firstSilenceAt ∧ st.silence.hadSpeech = true ∧
        st.expectsBeep = false ∧
        cfg.beepWaitTimeout ≤ currentTime - st.firstSilenceAt then
      makeDecision st (st.firstSilenceAt + 200) reasonSilenceTimeout currentTime
    else st

/-- Mirrors `DecisionEngine.makeFinalDecision` (the end-of-stream fallback).
Note: it computes `deadAir` from `firstSilenceAt` alone, never from the
beep. -/
def makeFinalDecision (st : EngState) (totalDuration : ℚ) : EngState :=
  let (dropTime, reason) :=
    match st.beepDetected with
    | some b => (b.endTime + 50, reasonBeepAtEnd)
    | none =>
      if 0 < st.firstSilenceAt ∧ st.silence.hadSpeech = true then
        (st.firstSilenceAt + 200, reasonSilenceNoBeep)
      else if st.phraseFound then
        match st.phraseDetected with
        | some pe => (pe.timestamp + 1000, reasonPhraseOnly)
        | none => (0, "")
      else ((9/10) * totalDuration, reasonFallback)
  let deadAir : ℚ :=
    if 0 < st.firstSilenceAt then totalDuration - st.firstSilenceAt else 0
  let res : EResult :=
    { recommendedDropTime := dropTime, reason := reason,
      signals := st.signals, transcript := st.transcript,
      decisionMadeAt := totalDuration, deadAir := deadAir }
  { st with decisionResult := some res }

/-- Mirrors the transcript goroutine body `DecisionEngine.processTranscripts`
for one `TranscriptEvent` with text `text` at time `ts`. -/
def processTranscriptEvent (cfg : Config) (st : EngState) (text : String)
    (ts : ℚ) : EngState :=
  let st := { st with transcript := st.transcript ++ " " ++ text }
  let (det, pev) := phraseProcess cfg st.phraseDetected text ts
  let st := { st with phraseDetected := det }
  match pev with
  | some ev =>
    let st := { st with phraseFound := true,
                        phraseTime := if st.phraseTime = 0 then ev.timestamp
                                      else st.phraseTime }
    let lowPhrase := lowerChars ev.phrase.data
    let st :=
      if hasSub "beep".data lowPhrase || hasSub "tone".data lowPhrase then
        { st with expectsBeep := true }
      else st
    { st with signals := st.signals ++
        [{ type := "phrase", timestamp := ev.timestamp, details := "matched" }] }
  | none => st

/-- Mirrors the chunk loop of `DecisionEngine.Process`: `lastChunkTime` is
updated, the chunk is processed, the loop breaks if a decision was already
made, and only then is the priority table evaluated.  Returns the engine
state and the final `lastChunkTime`. -/
def engineLoop (cfg : Config) (st : EngState) (chunks : List AChunk)
    (last : ℚ) : EngState × ℚ :=
  match chunks with
  | [] => (st, last)
  | c :: rest =>
    let last1 := c.timestamp + c.duration
    let st1 := processChunk cfg st c
    if st1.decisionMade then (st1, last1)
    else engineLoop cfg (checkForDecision cfg st1 last1) rest last1

/-- `lastChunkTime` after consuming the whole stream (0 for an empty one). -/
def lastChunkTime (chunks : List AChunk) : ℚ :=
  chunks.foldl (fun _ c => c.timestamp + c.duration) 0

/-- Mirrors `DecisionEngine.Process` after a successfully opened stream, in
the STT-disabled run (no transcript events): run the chunk loop, then apply
`makeFinalDecision` unless a priority rule already decided, and return the
engine `decisionResult`. -/
def engineProcessOpt (cfg : Config) (chunks : List AChunk) : Option EResult :=
  let (st, last) := engineLoop cfg (initEngState cfg) chunks 0
  if st.decisionMade then st.decisionResult
  else (makeFinalDecision st last).decisionResult

/-- Mirrors `SpeechToText.Connect` up to the external Deepgram client:
`backendOk` abstracts whether `client.NewWSUsingCallback` plus
`dgClient.Connect()` succeed. -/
def sttConnect (cfg : Config) (backendOk : Bool) : Except String Unit :=
  if cfg.enableSTT = false then
    Except.error "speech-to-text is disabled (no API key)"
  else if backendOk = false then
    Except.error "failed to connect to Deepgram WebSocket"
  else Except.ok ()

/-! ## WAV container (internal/audio/streamer.go) -/

/-- Little-endian read of `count` bytes starting at `pos`; `none` when the
file is too short (a failed `binary.Read`). -/
def readLE (bytes : List ℕ) (pos : ℕ) : ℕ → Option ℕ
  | 0 => some 0
  | k + 1 =>
    match bytes[pos]?, readLE bytes (pos + 1) k with
    | some b, some rest => some (b + 256 * rest)
    | _, _ => none

/-- Raw byte run of length `count` at `pos`; `none` when past end of file. -/
def bytesAt (bytes : List ℕ) (pos count : ℕ) : Option (List ℕ) :=
  if pos + count ≤ bytes.length then some ((bytes.drop pos).take count) else none

/-- Mirrors `audio.WAVHeader` (the fixed 36-byte prefix read by
`binary.Read`). -/
structure WAVHeader where
  chunkID : List ℕ
  chunkSize : ℕ
  format : List ℕ
  subchunk1ID : List ℕ
  subchunk1Size : ℕ
  audioFormat : ℕ
  numChannels : ℕ
  sampleRate : ℕ
  byteRate : ℕ
  blockAlign : ℕ
  bitsPerSample : ℕ
deriving DecidableEq, Repr

/-- The single `binary.Read(f, ..., &wav.Header)` call: all 36 bytes must be
present. -/
def parseHeader (bytes : List ℕ) : Option WAVHeader :=
  match bytesAt bytes 0 4, readLE bytes 4 4, bytesAt bytes 8 4,
      bytesAt bytes 12 4, readLE bytes 16 4, readLE bytes 20 2,
      readLE bytes 22 2, readLE bytes 24 4, readLE bytes 28 4,
      readLE bytes 32 2, readLE bytes 34 2 with
  | some cid, some csize, some fmt4, some s1id, some s1size, some af,
      some nch, some sr, some br, some ba, some bps =>
    some { chunkID := cid, chunkSize := csize, format := fmt4,
           subchunk1ID := s1id, subchunk1Size := s1size, audioFormat := af,
           numChannels := nch, sampleRate := sr, byteRate := br,
           blockAlign := ba, bitsPerSample := bps }
  | _, _, _, _, _, _, _, _, _, _, _ => none

def riffMagic : List ℕ := [82, 73, 70, 70]

def waveMagic : List ℕ := [87, 65, 86, 69]

def dataMagic : List ℕ := [100, 97, 116, 97]

/-- The sub-chunk scan of `OpenWAV`: read a 4-byte id and 4-byte size at
`pos`; on `data` return (data offset, data size), otherwise skip the declared
size.  Each iteration consumes at least 8 bytes, so `bytes.length + 1` fuel
always suffices; running out of file is the Go read error. -/
def findDataChunk (bytes : List ℕ) : ℕ → ℕ → Option (ℕ × ℕ)
  | 0, _ => none
  | fuel + 1, pos =>
    match bytesAt bytes pos 4, readLE bytes (pos + 4) 4 with
    | some cid, some csize =>
      if cid = dataMagic then some (pos + 8, csize)
      else findDataChunk bytes fuel (pos + 8 + csize)
    | _, _ => none

/-- Mirrors `audio.WAVFile`; `bytes` stands for the opened file and
`dataOffset` for the file position left by `OpenWAV`. -/
structure WAVFile where
  header : WAVHeader
  dataOffset : ℕ
  dataSize : ℕ
  bytes : List ℕ
deriving DecidableEq, Repr

/-- Mirrors `audio.OpenWAV`: read the header, validate the RIFF and WAVE
magic, skip `Subchunk1Size - 16` format-extension bytes when positive, and
scan for the `data` sub-chunk.  Natural subtraction makes `36 + (s - 16)`
the Go position for both branches of `if fmtExtraBytes > 0`. -/
def openWAV (bytes : List ℕ) : Option WAVFile :=
  match parseHeader bytes with
  | none => none
  | some h =>
    if h.chunkID = riffMagic ∧ h.format = waveMagic then
      match findDataChunk bytes (bytes.length + 1) (36 + (h.subchunk1Size - 16)) with
      | some (off, size) =>
        some { header := h, dataOffset := off, dataSize := size, bytes := bytes }
      | none => none
    else none

/-- One sample decode in `ReadSamples`: the Go `switch bytesPerSample` with
cases 1, 2 and 4; any other width leaves the zero-initialized `sample`
untouched. -/
def decodeOne (buf : List ℕ) (bps offset : ℕ) : ℚ :=
  match bps with
  | 1 => ((buf.getD offset 0 : ℚ) - 128) / 128
  | 2 =>
    let v := buf.getD offset 0 + 256 * buf.getD (offset + 1) 0
    let s : ℤ := if 32768 ≤ v then (v : ℤ) - 65536 else (v : ℤ)
    (s : ℚ) / 32768
  | 4 =>
    let v := buf.getD offset 0 + 256 * buf.getD (offset + 1) 0 +
      65536 * buf.getD (offset + 2) 0 + 16777216 * buf.getD (offset + 3) 0
    let s : ℤ := if 2147483648 ≤ v then (v : ℤ) - 4294967296 else (v : ℤ)
    (s : ℚ) / 2147483648
  | _ => 0

/-- Mirrors the first `WAVFile.ReadSamples(numSamples)` call after `OpenWAV`
(the file position is `dataOffset`).  Returns `Except.error ()` for the
`io.EOF` return when no byte could be read. -/
def readSamplesFrom (w : WAVFile) (numSamples : ℕ) : Except Unit (List ℚ) :=
  let bps := w.header.bitsPerSample / 8
  let ch := w.header.numChannels
  let bytesToRead := numSamples * bps * ch
  let buf := (w.bytes.drop w.dataOffset).take bytesToRead
  let n := buf.length
  if n = 0 then Except.error ()
  else
    let actual := n / (bps * ch)
    Except.ok ((List.range actual).map (fun i =>
      let offset := i * bps * ch
      let s := decodeOne buf bps offset
      if ch = 2 then (s + decodeOne buf bps (offset + bps)) / 2 else s))

/-! ## Concrete streams and auxiliary predicates used in the statements -/

/-- A chunk whose spectral analysis reports a clean in-band tone at 1000 Hz
with amplitude 0.1, and whose samples are quiet (low rms). -/
def beepChunk (t d : ℚ) : AChunk :=
  { timestamp := t, duration := d, rms := 0, short := false,
    freq := 1000, amp := 1/10, isTone := true }

/-- A silent chunk with no tonal content. -/
def quietChunk (t d : ℚ) : AChunk :=
  { timestamp := t, duration := d, rms := 0, short := false,
    freq := 0, amp := 0, isTone := false }

/-- A loud speech chunk (rms 1.0) with no tonal content. -/
def speechChunk (t d : ℚ) : AChunk :=
  { timestamp := t, duration := d, rms := 1, short := false,
    freq := 0, amp := 0, isTone := false }

/-- Seven 20 ms beep-like chunks followed by one quiet chunk; the stream then
ends, 20 ms after the beep trailing edge. -/
def c1chunks : List AChunk :=
  ((List.range 7).map (fun i => beepChunk (20 * i) 20)) ++ [quietChunk 140 20]

/-- The `c1chunks` beep followed by quiet until 660 ms, so the 500 ms
post-beep verification elapses and priority rule 1 fires on the last chunk. -/
def c3base : List AChunk :=
  ((List.range 7).map (fun i => beepChunk (20 * i) 20)) ++
  ((List.range 26).map (fun i => quietChunk (140 + 20 * i) 20))

/-- Speech, a 2.5 s silent run, sound, a 1.5 s silent run, sound, then the
start of a third silent run (500 ms chunks). -/
def c9chunks : List AChunk :=
  [speechChunk 0 500,
   quietChunk 500 500, quietChunk 1000 500, quietChunk 1500 500,
   quietChunk 2000 500, quietChunk 2500 500,
   speechChunk 3000 500,
   quietChunk 3500 500, quietChunk 4000 500,
   speechChunk 4500 500,
   quietChunk 5000 500]

/-- Silence-detector state after the first `n` chunks of `c9chunks`. -/
def c9run (n : ℕ) : SilenceState :=
  silenceRunSt defaultConfig (newSilenceDetector defaultConfig) (c9chunks.take n)

/-- The claim's formula for the minimum hit count: max(5, ceil(150 ms /
chunk duration)).  Stated from the spec wording, for comparison with the
source-derived `minHitsOf`. -/
def minHitsSpec (chunkDuration : ℚ) : ℤ :=
  max 5 ⌈(150 : ℚ) / chunkDuration⌉

/-- The chunk list is contiguous and uniform: the first chunk starts at `t`,
every chunk lasts `d`, and each next chunk starts where the previous one
ended. -/
def uniformFromB (t d : ℚ) : List AChunk → Bool
  | [] => true
  | c :: rest => decide (c.timestamp = t) && decide (c.duration = d) &&
      uniformFromB (t + d) d rest

/-- A minimal well-formed RIFF/WAVE file with PCM format, one channel,
BitsPerSample = 24, and a 6-byte data chunk. -/
def demoWav24 : List ℕ :=
  riffMagic ++ [36, 0, 0, 0] ++ waveMagic ++
  [102, 109, 116, 32] ++ [16, 0, 0, 0] ++ [1, 0] ++ [1, 0] ++
  [128, 62, 0, 0] ++ [128, 187, 0, 0] ++ [3, 0] ++ [24, 0] ++
  dataMagic ++ [6, 0, 0, 0] ++ [17, 34, 51, 68, 85, 102]

/-- The `c3base` stream extended by one loud speech chunk delivered after the
priority-1 decision has fired. -/
def c3ext : List AChunk := c3base ++ [speechChunk 660 20]

/-- The engine state of a run that has seen neither speech, nor any beep
candidate, nor a phrase: all fusion evidence is still empty. -/
def EngQuiet (cfg : Config) (st : EngState) : Prop :=
  st.beep.beepActive = false ∧
  st.silence.hadSpeech = false ∧
  st.silence.speechThreshold = cfg.silenceThreshold * 3 ∧
  st.firstSilenceAt = 0 ∧
  st.beepDetected = none ∧
  st.phraseFound = false ∧
  st.expectsBeep = false ∧
  st.decisionMade = false

/-- The `WAVFile` value that `openWAV` produces for `demoWav24`. -/
def demoParsedWav : WAVFile where
  header :=
    { chunkID := riffMagic, chunkSize := 36, format := waveMagic,
      subchunk1ID := [102, 109, 116, 32], subchunk1Size := 16, audioFormat := 1,
      numChannels := 1, sampleRate := 16000, byteRate := 48000, blockAlign := 3,
      bitsPerSample := 24 }
  dataOffset := 44
  dataSize := 6
  bytes := demoWav24

/-! ## Engine bookkeeping lemmas -/

/-- `processChunk` never touches the decision fields: the decision is made
only in `checkForDecision` (and `makeFinalDecision`). -/
theorem processChunk_decisionMade (cfg : Config) (st : EngState) (c : AChunk) :
    (processChunk cfg st c).decisionMade = st.decisionMade ∧
    (processChunk cfg st c).decisionResult = st.decisionResult := by
  unfold processChunk
  rcases hb : beepProcess cfg st.beep c with ⟨bst, bev⟩
  rcases hs : silenceProcess cfg st.silence c with ⟨sst, sev⟩
  simp only [hb, hs]
  cases bev <;> cases sev <;> dsimp only <;> repeat' split
  all_goals exact ⟨rfl, rfl⟩

/-- `makeFinalDecision` always stores a result. -/
theorem makeFinalDecision_isSome (st : EngState) (t : ℚ) :
    (makeFinalDecision st t).decisionResult.isSome = true := by
  unfold makeFinalDecision
  repeat' split
  all_goals rfl

/-- `checkForDecision` preserves the invariant that a made decision comes
with a stored result. -/
theorem checkForDecision_inv (cfg : Config) (st : EngState) (t : ℚ)
    (h : st.decisionMade = true → st.decisionResult.isSome = true) :
    (checkForDecision cfg st t).decisionMade = true →
    (checkForDecision cfg st t).decisionResult.isSome = true := by
  unfold checkForDecision makeDecision
  repeat' split
  all_goals simp_all

/-- The chunk loop preserves the decision/result invariant. -/
theorem engineLoop_resInv (cfg : Config) (chunks : List AChunk) :
    ∀ st last, (st.decisionMade = true → st.decisionResult.isSome = true) →
    ((engineLoop cfg st chunks last).1.decisionMade = true →
     (engineLoop cfg st chunks last).1.decisionResult.isSome = true) := by
  induction chunks with
  | nil => intro st last h; exact h
  | cons c rest ih =>
    intro st last h
    have hp := processChunk_decisionMade cfg st c
    unfold engineLoop
    dsimp only
    split
    · intro hm
      rw [hp.2]
      exact h (hp.1.symm.trans hm)
    · exact ih _ _ (checkForDecision_inv cfg _ _
        (fun hm => by rw [hp.2]; exact h (hp.1.symm.trans hm)))

/-- `DecisionEngine.Process` always produces a `Result` once the stream is
open: either a priority rule stored one, or the fallback builds one. -/
theorem engineProcessOpt_isSome (cfg : Config) (chunks : List AChunk) :
    (engineProcessOpt cfg chunks).isSome = true := by
  unfold engineProcessOpt
  rcases h : engineLoop cfg (initEngState cfg) chunks 0 with ⟨st, last⟩
  dsimp only
  split
  · have := engineLoop_resInv cfg chunks (initEngState cfg) 0
      (fun hm => by simp [initEngState] at hm)
    rw [h] at this
    exact this (by assumption)
  · exact makeFinalDecision_isSome st last

/-! ## C8: STT failure is degradation, never fatal -/

/-- Claim C8: if STT is disabled or the connection attempt fails, `Connect`
returns an error, and `DecisionEngine.Process` still runs the whole stream
and returns a Result: an STT backend failure never prevents a Result. -/
theorem sttFailure_still_yields_result (cfg : Config) (backendOk : Bool)
    (h : cfg.enableSTT = false ∨ backendOk = false) :
    (∃ msg, sttConnect cfg backendOk = Except.error msg) ∧
    ∀ chunks, (engineProcessOpt cfg chunks).isSome = true := by
  constructor
  · rcases h with h | h
    · exact ⟨"speech-to-text is disabled (no API key)", by simp [sttConnect, h]⟩
    · by_cases he : cfg.enableSTT = false
      · exact ⟨"speech-to-text is disabled (no API key)", by simp [sttConnect, he]⟩
      · exact ⟨"failed to connect to Deepgram WebSocket", by simp [sttConnect, he, h]⟩
  · intro chunks
    exact engineProcessOpt_isSome cfg chunks

/-- Witness for C8 at the default (keyless) configuration and the `c1chunks`
stream. -/
theorem sttFailure_witness :
    (∃ msg, sttConnect defaultConfig true = Except.error msg) ∧
    (engineProcessOpt defaultConfig c1chunks).isSome = true :=
  ⟨(sttFailure_still_yields_result defaultConfig true (Or.inl rfl)).1,
   (sttFailure_still_yields_result defaultConfig true (Or.inl rfl)).2 c1chunks⟩

/-! ## C1: the DeadAir formula -/

/-- Claim C1, amended: in a priority-rule Result, `deadAir` is
`decisionMadeAt - firstSilenceAt` whenever a confirmed silence exists (even
when the beep ended earlier), else `decisionMadeAt - beep.end` when a beep is
recorded, else 0; in the end-of-stream fallback Result it is
`totalDuration - firstSilenceAt` when a confirmed silence exists and 0
otherwise, the recorded beep being ignored. -/
theorem deadAir_formula (st : EngState) (dropTime : ℚ) (reason : String)
    (dt total : ℚ) :
    (makeDecision st dropTime reason dt).decisionResult.map EResult.deadAir =
      some (if 0 < st.firstSilenceAt then dt - st.firstSilenceAt
            else match st.beepDetected with
                 | some b => dt - b.endTime
                 | none => 0) ∧
    (makeFinalDecision st total).decisionResult.map EResult.deadAir =
      some (if 0 < st.firstSilenceAt then total - st.firstSilenceAt else 0) := by
  constructor
  · rfl
  · unfold makeFinalDecision
    repeat' split
    all_goals rfl

unseal Rat.add Rat.sub Rat.mul Rat.inv Rat.ofScientific in
/-- Counterexample to claim C1 as stated: on `c1chunks` the engine reaches
the fallback with a recorded beep (end 140 ms) and no confirmed silence, and
the Result has `deadAir = 0`, not `decisionMadeAt - beep.end = 20 ms` as the
claim requires. -/
theorem deadAir_counterexample :
    (engineProcessOpt defaultConfig c1chunks).map EResult.deadAir = some 0 ∧
    (engineProcessOpt defaultConfig c1chunks).map EResult.decisionMadeAt = some 160 ∧
    (engineLoop defaultConfig (initEngState defaultConfig) c1chunks 0).1.beepDetected =
      some { startTime := 0, endTime := 140, frequency := 1000, amplitude := 1/10 } ∧
    (engineLoop defaultConfig (initEngState defaultConfig) c1chunks 0).1.firstSilenceAt = 0 ∧
    ¬((160 : ℚ) - 140 = 0) := by
  refine ⟨?_, ?_, ?_, ?_, ?_⟩ <;> decide

/-! ## C2: the minHits formula -/

unseal Rat.add Rat.sub Rat.mul Rat.inv Rat.ofScientific in
/-- Counterexample to claim C2 as stated: at the default 20 ms chunk
duration the code computes `minHits = 7` (truncating division), while the
claimed formula max(5, ceil(150 ms / 20 ms)) yields 8. -/
theorem minHits_counterexample :
    (newBeepDetector defaultConfig).minHits = 7 ∧
    minHitsSpec defaultConfig.chunkDuration = 8 ∧ ¬((7 : ℤ) = 8) := by
  refine ⟨?_, ?_, ?_⟩ <;> decide

unseal Rat.add Rat.sub Rat.mul Rat.inv Rat.ofScientific in
/-- Claim C2, amended: for every positive chunk duration, `minHits` equals
max(5, floor(150 ms / chunk duration)); with the default 20 ms chunk
duration, `minHits = 7`. -/
theorem minHits_amended :
    (∀ cd : ℚ, 0 < cd → minHitsOf cd = max 5 ⌊(150 : ℚ) / cd⌋) ∧
    (newBeepDetector defaultConfig).minHits = 7 := by
  constructor
  · intro cd _
    unfold minHitsOf
    dsimp only
    split <;> omega
  · decide

unseal Rat.add Rat.sub Rat.mul Rat.inv Rat.ofScientific in
/-- Witness for the amended C2 at the default chunk duration. -/
theorem minHits_amended_witness :
    minHitsOf 20 = max 5 ⌊(150 : ℚ) / 20⌋ ∧
    (newBeepDetector defaultConfig).minHits = 7 :=
  ⟨minHits_amended.1 20 (by decide), minHits_amended.2⟩

/-! ## C3: what happens after a priority rule fires -/

/-- Claim C3, amended: once a priority rule has fired, the engine evaluates
no further rule and the Result is the one from that first matching rule;
however, because `Process` checks the decision flag only after
`processChunk`, the next chunk of the stream (when there is one) is still
run through the detectors before the loop exits. -/
theorem decision_stops_rules (cfg : Config) (st : EngState) (c : AChunk)
    (rest : List AChunk) (last : ℚ) (h : st.decisionMade = true) :
    engineLoop cfg st (c :: rest) last =
      (processChunk cfg st c, c.timestamp + c.duration) ∧
    (processChunk cfg st c).decisionResult = st.decisionResult := by
  have hp := processChunk_decisionMade cfg st c
  constructor
  · unfold engineLoop
    dsimp only
    rw [if_pos (hp.1.trans h)]
  · exact hp.2

/-- Witness for the amended C3: a decided engine state processes exactly one
further chunk and keeps its Result. -/
theorem decision_stops_rules_witness :
    engineLoop defaultConfig
        (makeDecision (initEngState defaultConfig) 190 reasonBeepConfirmed 660)
        [speechChunk 660 20] 0 =
      (processChunk defaultConfig
        (makeDecision (initEngState defaultConfig) 190 reasonBeepConfirmed 660)
        (speechChunk 660 20),
       (speechChunk 660 20).timestamp + (speechChunk 660 20).duration) ∧
    (processChunk defaultConfig
        (makeDecision (initEngState defaultConfig) 190 reasonBeepConfirmed 660)
        (speechChunk 660 20)).decisionResult =
      (makeDecision (initEngState defaultConfig) 190 reasonBeepConfirmed 660).decisionResult :=
  decision_stops_rules defaultConfig _ _ [] 0 rfl

unseal Rat.add Rat.sub Rat.mul Rat.inv Rat.ofScientific in
/-- Counterexample to claim C3 as stated: on `c3base` rule 1 fires (the
Result and its reason are fixed), yet appending one speech chunk after the
decision still drives the detectors: the silence detector's `hadSpeech` flag
flips from false to true while the Result is unchanged. -/
theorem decision_stops_counterexample :
    engineProcessOpt defaultConfig c3ext = engineProcessOpt defaultConfig c3base ∧
    (engineProcessOpt defaultConfig c3base).map EResult.reason = some reasonBeepConfirmed ∧
    (engineLoop defaultConfig (initEngState defaultConfig) c3base 0).1.silence.hadSpeech = false ∧
    (engineLoop defaultConfig (initEngState defaultConfig) c3ext 0).1.silence.hadSpeech = true := by
  refine ⟨?_, ?_, ?_, ?_⟩ <;> decide

/-! ## C4: phrase detector re-triggering -/

/-- Claim C4, amended: every `PhraseDetector.Process` call whose text
matches a configured end phrase returns a fresh non-nil `PhraseEvent` (with
the call's timestamp) and overwrites `detected` with it; the first match is
preserved only at the engine level, where `processTranscripts` keeps a
nonzero `phraseTime` unchanged. -/
theorem phrase_retrigger_amended (cfg : Config) (detected : Option PhraseEvent)
    (text : String) (ts : ℚ) :
    (∀ ev, (phraseProcess cfg detected text ts).2 = some ev →
      (phraseProcess cfg detected text ts).1 = some ev ∧ ev.timestamp = ts) ∧
    ((firstMatch cfg.endPhrases (String.mk (lowerChars text.data))).isSome = true →
      (phraseProcess cfg detected text ts).2.isSome = true) ∧
    (∀ (st : EngState) (t2 : String) (q : ℚ), ¬ st.phraseTime = 0 →
      (processTranscriptEvent cfg st t2 q).phraseTime = st.phraseTime) := by
  refine ⟨?_, ?_, ?_⟩
  · intro ev hev
    rcases h : firstMatch cfg.endPhrases (String.mk (lowerChars text.data)) with _ | p
    · simp [phraseProcess, h] at hev
    · simp only [phraseProcess, h] at hev ⊢
      cases hev
      exact ⟨rfl, rfl⟩
  · intro h
    rcases hm : firstMatch cfg.endPhrases (String.mk (lowerChars text.data)) with _ | p
    · rw [hm] at h
      simp at h
    · simp [phraseProcess, hm]
  · intro st t2 q hq
    unfold processTranscriptEvent
    rcases hp : phraseProcess cfg st.phraseDetected t2 q with ⟨det, pev⟩
    dsimp only
    rw [show phraseProcess cfg
      ({ st with transcript := st.transcript ++ " " ++ t2 } : EngState).phraseDetected
      t2 q = (det, pev) from hp]
    cases pev with
    | none => rfl
    | some ev =>
      dsimp only
      rw [if_neg hq]
      split <;> rfl

unseal Rat.add Rat.sub Rat.mul Rat.inv Rat.ofScientific in
/-- Counterexample to claim C4 as stated: the second matching call returns a
non-nil event (the claim says nil) and replaces the recorded event with the
new one instead of keeping the first. -/
theorem phrase_retrigger_counterexample :
    (phraseProcess defaultConfig none "after the beep" 100).2 =
      some { timestamp := 100, phrase := "after the beep", fullText := "after the beep" } ∧
    (phraseProcess defaultConfig
        (some { timestamp := 100, phrase := "after the beep", fullText := "after the beep" })
        "after the beep" 200).2 =
      some { timestamp := 200, phrase := "after the beep", fullText := "after the beep" } ∧
    ¬((phraseProcess defaultConfig
        (some { timestamp := 100, phrase := "after the beep", fullText := "after the beep" })
        "after the beep" 200).1 =
      some { timestamp := 100, phrase := "after the beep", fullText := "after the beep" }) := by
  refine ⟨?_, ?_, ?_⟩ <;> decide

unseal Rat.add Rat.sub Rat.mul Rat.inv Rat.ofScientific in
/-- Witness for the amended C4. -/
theorem phrase_retrigger_witness :
    (phraseProcess defaultConfig none "at the tone" 7).1 =
      some { timestamp := 7, phrase := "at the tone", fullText := "at the tone" } ∧
    (processTranscriptEvent defaultConfig
        ({ initEngState defaultConfig with phraseTime := 5 }) "hello" 9).phraseTime =
      ({ initEngState defaultConfig with phraseTime := 5 } : EngState).phraseTime := by
  refine ⟨((phrase_retrigger_amended defaultConfig none "at the tone" 7).1 _
    (by decide)).1, ?_⟩
  exact (phrase_retrigger_amended defaultConfig none "x" 0).2.2 _ "hello" 9
    (by decide)

/-! ## C9: stickiness of the confirmedEnd flag -/

/-- Claim C9, amended: when sound interrupts a silent run of at least 2 s,
`confirmedEnd` is left unchanged (in particular it stays true), and any
SilenceEvent emitted while `confirmedEnd` is already true carries
`Confirmed = true`; but the flag is cleared whenever a silent run shorter
than 2 s is interrupted by sound, so a silent run that starts after such a
clearing does not confirm immediately. -/
theorem confirmedEnd_sticky (cfg : Config) (st : SilenceState) (c : AChunk) :
    (st.inSilence = true → ¬(c.rms < cfg.silenceThreshold) →
      (2000 : ℚ) ≤ (c.timestamp + c.duration) - st.silenceStart →
      (silenceProcess cfg st c).1.confirmedEnd = st.confirmedEnd) ∧
    (st.confirmedEnd = true → ∀ ev, (silenceProcess cfg st c).2 = some ev →
      ev.confirmed = true) := by
  constructor
  · intro hin hns hlong
    unfold silenceProcess
    dsimp only
    rw [if_neg hns]
    split
    · dsimp only
      rw [if_neg (fun hand => absurd hand.2 (not_lt.mpr hlong))]
    · dsimp only
      rw [if_neg (fun hand => absurd hand.2 (not_lt.mpr hlong))]
  · intro hce ev hev
    unfold silenceProcess at hev
    dsimp only at hev
    repeat' split at hev
    all_goals dsimp only at hev
    all_goals first
      | exact Option.noConfusion hev
      | (cases hev; simp_all)

unseal Rat.add Rat.sub Rat.mul Rat.inv Rat.ofScientific in
/-- Counterexample to claim C9 as stated: after the 2.5 s run A is
interrupted (flag true), the short 1.5 s run B is interrupted and clears the
flag, so the first SilenceEvent of the later run C carries
`Confirmed = false`, refuting the claim for that later silent run. -/
theorem confirmedEnd_counterexample :
    (c9run 7).confirmedEnd = true ∧
    (silenceProcess defaultConfig (c9run 10) (quietChunk 5000 500)).2 = none ∧
    (silenceProcess defaultConfig (c9run 11) (quietChunk 5500 500)).2 =
      some { startTime := 5000, endTime := 6000, duration := 1000, confirmed := false } ∧
    (c9run 11).hadSpeech = true := by
  refine ⟨?_, ?_, ?_, ?_⟩ <;> decide

unseal Rat.add Rat.sub Rat.mul Rat.inv Rat.ofScientific in
/-- Witness for the amended C9 on the `c9chunks` stream. -/
theorem confirmedEnd_sticky_witness :
    (silenceProcess defaultConfig (c9run 6) (speechChunk 3000 500)).1.confirmedEnd =
      (c9run 6).confirmedEnd ∧
    (∃ ev, (silenceProcess defaultConfig (c9run 8) (quietChunk 4000 500)).2 = some ev ∧
      ev.confirmed = true) := by
  constructor
  · exact (confirmedEnd_sticky defaultConfig (c9run 6) (speechChunk 3000 500)).1
      (by decide) (by decide) (by decide)
  · refine ⟨{ startTime := 3500, endTime := 4500, duration := 1000, confirmed := true },
      by decide, ?_⟩
    exact (confirmedEnd_sticky defaultConfig (c9run 8) (quietChunk 4000 500)).2
      (by decide) _ (by decide)

/-! ## C6: minimum duration of emitted BeepEvents -/

theorem beepEmitBranch (cfg : Config) (st : BeepState) (c : AChunk) (t : ℚ)
    (hd : 0 < cfg.chunkDuration)
    (hct : c.timestamp = t)
    (hmin : st.minHits = minHitsOf cfg.chunkDuration)
    (hinv : st.beepActive = true →
      st.beepStartTime + st.consecutiveHits * cfg.chunkDuration ≤ t) :
    let p : BeepState × Option BeepEvent :=
      if st.beepActive = true ∧ st.minHits ≤ st.consecutiveHits then
        (beepReset { st with allBeeps := st.allBeeps ++
            [{ startTime := st.beepStartTime, endTime := c.timestamp,
               frequency := st.beepFrequency, amplitude := st.beepAmplitude }] },
         some { startTime := st.beepStartTime, endTime := c.timestamp,
                frequency := st.beepFrequency, amplitude := st.beepAmplitude })
      else (beepReset st, none)
    (p.1.minHits = minHitsOf cfg.chunkDuration ∧
     (p.1.beepActive = true →
       p.1.beepStartTime + p.1.consecutiveHits * cfg.chunkDuration ≤
         t + cfg.chunkDuration) ∧
     (p.1.beepActive = false → p.1.consecutiveHits = 0)) ∧
    (∀ e, p.2 = some e →
      (minHitsOf cfg.chunkDuration : ℚ) * cfg.chunkDuration ≤
        e.endTime - e.startTime) := by
  intro p
  by_cases hg : st.beepActive = true ∧ st.minHits ≤ st.consecutiveHits
  · have hp : p = (beepReset { st with allBeeps := st.allBeeps ++
        [{ startTime := st.beepStartTime, endTime := c.timestamp,
           frequency := st.beepFrequency, amplitude := st.beepAmplitude }] },
        some { startTime := st.beepStartTime, endTime := c.timestamp,
               frequency := st.beepFrequency, amplitude := st.beepAmplitude }) :=
      if_pos hg
    rw [hp]
    refine ⟨⟨hmin, ?_, ?_⟩, ?_⟩
    · intro hfalse
      simp [beepReset] at hfalse
    · intro _
      rfl
    · intro e he
      cases he
      dsimp only
      have hcast : (minHitsOf cfg.chunkDuration : ℚ) ≤ (st.consecutiveHits : ℚ) := by
        exact_mod_cast hmin ▸ hg.2
      have hmul : (minHitsOf cfg.chunkDuration : ℚ) * cfg.chunkDuration ≤
          (st.consecutiveHits : ℚ) * cfg.chunkDuration :=
        mul_le_mul_of_nonneg_right hcast hd.le
      have h1 := hinv hg.1
      rw [hct]
      linarith
  · have hp : p = (beepReset st, none) := if_neg hg
    rw [hp]
    refine ⟨⟨hmin, ?_, ?_⟩, ?_⟩
    · intro hfalse
      simp [beepReset] at hfalse
    · intro _
      rfl
    · intro e he
      exact Option.noConfusion he

/-- One `BeepDetector.Process` step preserves the timing invariant of a
contiguous uniform-duration stream and any event it emits spans at least
`minHits` chunk durations. -/
theorem beepProcess_step (cfg : Config) (st : BeepState) (c : AChunk) (t : ℚ)
    (hd : 0 < cfg.chunkDuration)
    (hct : c.timestamp = t)
    (hmin : st.minHits = minHitsOf cfg.chunkDuration)
    (hinv : st.beepActive = true →
      st.beepStartTime + st.consecutiveHits * cfg.chunkDuration ≤ t)
    (hz : st.beepActive = false → st.consecutiveHits = 0) :
    ((beepProcess cfg st c).1.minHits = minHitsOf cfg.chunkDuration ∧
     ((beepProcess cfg st c).1.beepActive = true →
       (beepProcess cfg st c).1.beepStartTime +
         (beepProcess cfg st c).1.consecutiveHits * cfg.chunkDuration ≤
           t + cfg.chunkDuration) ∧
     ((beepProcess cfg st c).1.beepActive = false →
       (beepProcess cfg st c).1.consecutiveHits = 0)) ∧
    (∀ e, (beepProcess cfg st c).2 = some e →
      (minHitsOf cfg.chunkDuration : ℚ) * cfg.chunkDuration ≤
        e.endTime - e.startTime) := by
  by_cases hs : c.short = true
  · rw [show beepProcess cfg st c = (st, none) from by rw [beepProcess, if_pos hs]]
    refine ⟨⟨hmin, ?_, hz⟩, ?_⟩
    · intro ha
      have := hinv ha
      linarith
    · intro e he
      exact Option.noConfusion he
  · cases hact : st.beepActive with
    | true =>
      cases hcand : beepCand cfg c with
      | false =>
        have hred : beepProcess cfg st c =
            if st.beepActive = true ∧ st.minHits ≤ st.consecutiveHits then
              (beepReset { st with allBeeps := st.allBeeps ++
                  [{ startTime := st.beepStartTime, endTime := c.timestamp,
                     frequency := st.beepFrequency, amplitude := st.beepAmplitude }] },
               some { startTime := st.beepStartTime, endTime := c.timestamp,
                      frequency := st.beepFrequency, amplitude := st.beepAmplitude })
            else (beepReset st, none) := by
          rw [beepProcess, if_neg hs]
          simp only [hcand, hact, Bool.false_and, Bool.and_true, Bool.if_false_left]
          rfl
        rw [hred]
        exact beepEmitBranch cfg st c t hd hct hmin hinv
      | true =>
        by_cases hdev : |c.freq - st.beepFrequency| / st.beepFrequency > 15/100
        · have hred : beepProcess cfg st c =
              if st.beepActive = true ∧ st.minHits ≤ st.consecutiveHits then
                (beepReset { st with allBeeps := st.allBeeps ++
                    [{ startTime := st.beepStartTime, endTime := c.timestamp,
                       frequency := st.beepFrequency, amplitude := st.beepAmplitude }] },
                 some { startTime := st.beepStartTime, endTime := c.timestamp,
                        frequency := st.beepFrequency, amplitude := st.beepAmplitude })
              else (beepReset st, none) := by
            rw [beepProcess, if_neg hs]
            simp only [hcand, hact, Bool.and_self, if_true, if_pos hdev]
            rfl
          rw [hred]
          exact beepEmitBranch cfg st c t hd hct hmin hinv
        · have hred : beepProcess cfg st c =
              ({ st with consecutiveHits := st.consecutiveHits + 1, beepActive := true,
                         beepFrequency := st.beepFrequency * (8/10) + c.freq * (2/10),
                         beepAmplitude := max st.beepAmplitude c.amp }, none) := by
            rw [beepProcess, if_neg hs]
            simp only [hcand, hact, Bool.and_self, if_true, if_neg hdev, if_pos hact]
          rw [hred]
          refine ⟨⟨hmin, ?_, ?_⟩, ?_⟩
          · intro _
            dsimp only
            have h1 := hinv hact
            have h2 : st.beepStartTime + ((st.consecutiveHits + 1 : ℤ) : ℚ) * cfg.chunkDuration =
                st.beepStartTime + (st.consecutiveHits : ℚ) * cfg.chunkDuration +
                  cfg.chunkDuration := by push_cast; ring
            rw [h2]
            linarith
          · intro hfalse
            simp at hfalse
          · intro e he
            exact Option.noConfusion he
    | false =>
      cases hcand : beepCand cfg c with
      | false =>
        have hred : beepProcess cfg st c = (beepReset st, none) := by
          rw [beepProcess, if_neg hs]
          simp only [hcand, hact, Bool.false_and, Bool.and_false]
          simp [hact]
        rw [hred]
        refine ⟨⟨hmin, ?_, ?_⟩, ?_⟩
        · intro hfalse
          simp [beepReset] at hfalse
        · intro _
          rfl
        · intro e he
          exact Option.noConfusion he
      | true =>
        have hz0 := hz hact
        have hred : beepProcess cfg st c =
            ({ st with beepStartTime := c.timestamp,
                       beepFrequency := c.freq * (8/10) + c.freq * (2/10),
                       beepAmplitude := max c.amp c.amp,
                       consecutiveHits := st.consecutiveHits + 1, beepActive := true }, none) := by
          rw [beepProcess, if_neg hs]
          simp only [hcand, hact, Bool.and_false, if_true, if_neg (by simp : ¬ (false = true))]
        rw [hred]
        refine ⟨⟨hmin, ?_, ?_⟩, ?_⟩
        · intro _
          dsimp only
          rw [hz0, hct]
          push_cast
          ring_nf
          linarith
        · intro hfalse
          simp at hfalse
        · intro e he
          exact Option.noConfusion he

/-- Any event emitted along a contiguous uniform-duration run satisfies the
minimum-span bound, given the invariant at the start. -/
theorem beepRun_minDuration (cfg : Config) (hd : 0 < cfg.chunkDuration) :
    ∀ (chunks : List AChunk) (st : BeepState) (t : ℚ),
      st.minHits = minHitsOf cfg.chunkDuration →
      (st.beepActive = true →
        st.beepStartTime + st.consecutiveHits * cfg.chunkDuration ≤ t) →
      (st.beepActive = false → st.consecutiveHits = 0) →
      uniformFromB t cfg.chunkDuration chunks = true →
      ∀ e ∈ (beepRun cfg st chunks).2,
        (minHitsOf cfg.chunkDuration : ℚ) * cfg.chunkDuration ≤
          e.endTime - e.startTime := by
  intro chunks
  induction chunks with
  | nil =>
    intro st t _ _ _ _ e he
    simp [beepRun] at he
  | cons c rest ih =>
    intro st t hmin hinv hz huni
    rw [uniformFromB] at huni
    simp only [Bool.and_eq_true, decide_eq_true_eq] at huni
    obtain ⟨⟨hct, hcd⟩, hrest⟩ := huni
    unfold beepRun
    rcases hb : beepProcess cfg st c with ⟨st1, ev⟩
    dsimp only
    intro e he
    rw [List.mem_append] at he
    have hstep := beepProcess_step cfg st c t hd hct hmin hinv hz
    rw [hb] at hstep
    rcases he with he | he
    · cases ev with
      | none => simp at he
      | some e0 =>
        simp at he
        subst he
        exact hstep.2 e rfl
    · exact ih st1 (t + cfg.chunkDuration) hstep.1.1 hstep.1.2.1 hstep.1.2.2 hrest e he

/-- Claim C6: on a contiguous stream of uniform-duration chunks, every
BeepEvent emitted by `BeepDetector.Process` spans at least
`minHits * ChunkDuration` (the stream-ended-mid-beep disjunct of the claim
covers only the non-emission case: the detector never emits at end of
stream). -/
theorem beepEvent_minDuration (cfg : Config) (chunks : List AChunk) (t0 : ℚ)
    (hd : 0 < cfg.chunkDuration)
    (huni : uniformFromB t0 cfg.chunkDuration chunks = true) :
    ∀ e ∈ (beepRun cfg (newBeepDetector cfg) chunks).2,
      (minHitsOf cfg.chunkDuration : ℚ) * cfg.chunkDuration ≤
        e.endTime - e.startTime :=
  beepRun_minDuration cfg hd chunks (newBeepDetector cfg) t0 rfl
    (fun h => absurd h (by simp [newBeepDetector])) (fun _ => rfl) huni

unseal Rat.add Rat.sub Rat.mul Rat.inv Rat.ofScientific in
/-- Witness for C6 on the `c1chunks` stream, whose single emitted event
spans exactly 7 x 20 ms. -/
theorem beepEvent_minDuration_witness :
    0 < defaultConfig.chunkDuration ∧
    uniformFromB 0 defaultConfig.chunkDuration c1chunks = true ∧
    ∀ e ∈ (beepRun defaultConfig (newBeepDetector defaultConfig) c1chunks).2,
      (minHitsOf defaultConfig.chunkDuration : ℚ) * defaultConfig.chunkDuration ≤
        e.endTime - e.startTime :=
  ⟨by decide, by decide,
   beepEvent_minDuration defaultConfig c1chunks 0 (by decide) (by decide)⟩

/-! ## C7: SilenceEvents require prior speech -/

/-- `SilenceDetector.Process` never changes `speechThreshold`. -/
theorem silence_speechThreshold_const (cfg : Config) (st : SilenceState) (c : AChunk) :
    (silenceProcess cfg st c).1.speechThreshold = st.speechThreshold := by
  unfold silenceProcess
  dsimp only
  repeat' split
  all_goals rfl

/-- `hadSpeech` after one step: latched, or set by this chunk being speech. -/
theorem silence_hadSpeech_step (cfg : Config) (st : SilenceState) (c : AChunk) :
    (silenceProcess cfg st c).1.hadSpeech =
      (st.hadSpeech || decide (st.speechThreshold ≤ c.rms)) := by
  unfold silenceProcess
  dsimp only
  repeat' split
  all_goals simp_all

theorem silenceRunSt_speechThreshold (cfg : Config) :
    ∀ (chunks : List AChunk) (st : SilenceState),
      (silenceRunSt cfg st chunks).speechThreshold = st.speechThreshold := by
  intro chunks
  induction chunks with
  | nil => intro st; rfl
  | cons c rest ih =>
    intro st
    rw [silenceRunSt, ih, silence_speechThreshold_const]

/-- `hadSpeech` after a run is the disjunction over the chunks seen. -/
theorem silenceRunSt_hadSpeech (cfg : Config) :
    ∀ (chunks : List AChunk) (st : SilenceState),
      (silenceRunSt cfg st chunks).hadSpeech =
        (st.hadSpeech || chunks.any (fun c => decide (st.speechThreshold ≤ c.rms))) := by
  intro chunks
  induction chunks with
  | nil => intro st; simp [silenceRunSt]
  | cons c rest ih =>
    intro st
    rw [silenceRunSt, ih, silence_hadSpeech_step, silence_speechThreshold_const]
    simp [Bool.or_assoc]

/-- An emission step requires the `hadSpeech` latch already set on entry:
with a positive threshold an emitting (silent) chunk cannot itself be
speech. -/
theorem silence_emit_requires (cfg : Config) (st : SilenceState) (c : AChunk)
    (ev : SilenceEvent) (hth : 0 < cfg.silenceThreshold)
    (hsp : st.speechThreshold = cfg.silenceThreshold * 3)
    (hev : (silenceProcess cfg st c).2 = some ev) : st.hadSpeech = true := by
  unfold silenceProcess at hev
  dsimp only at hev
  by_cases hsil : c.rms < cfg.silenceThreshold
  · rw [if_pos hsil] at hev
    have hns : ¬ (st.speechThreshold ≤ c.rms) := by
      rw [hsp]
      intro hle
      linarith
    rw [if_neg hns] at hev
    repeat' split at hev
    all_goals first
      | exact Option.noConfusion hev
      | simp_all
  · rw [if_neg hsil] at hev
    repeat' split at hev
    all_goals exact Option.noConfusion hev

/-- Claim C7: a `SilenceEvent` is returned only if some strictly earlier
chunk classified as speech (rms at least 3 x SilenceThreshold latched
`hadSpeech`), and a silent chunk itself can never set `hadSpeech`. -/
theorem silenceEvent_requires_prior_speech (cfg : Config)
    (hth : 0 < cfg.silenceThreshold) :
    (∀ (chunks : List AChunk) (c : AChunk) (ev : SilenceEvent),
      (silenceProcess cfg (silenceRunSt cfg (newSilenceDetector cfg) chunks) c).2 =
        some ev →
      ∃ c' ∈ chunks, 3 * cfg.silenceThreshold ≤ c'.rms) ∧
    (∀ (st : SilenceState) (c : AChunk),
      st.speechThreshold = cfg.silenceThreshold * 3 →
      c.rms < cfg.silenceThreshold →
      (silenceProcess cfg st c).1.hadSpeech = st.hadSpeech) := by
  constructor
  · intro chunks c ev hev
    have hsp : (silenceRunSt cfg (newSilenceDetector cfg) chunks).speechThreshold =
        cfg.silenceThreshold * 3 := by
      rw [silenceRunSt_speechThreshold]
      rfl
    have hh := silence_emit_requires cfg _ c ev hth hsp hev
    rw [silenceRunSt_hadSpeech] at hh
    simp only [newSilenceDetector, Bool.false_or, List.any_eq_true,
      decide_eq_true_eq] at hh
    obtain ⟨c', hmem, hge⟩ := hh
    exact ⟨c', hmem, by linarith⟩
  · intro st c hsp hr
    rw [silence_hadSpeech_step]
    have hns : ¬ (st.speechThreshold ≤ c.rms) := by
      rw [hsp]
      intro hle
      linarith
    simp [hns]

unseal Rat.add Rat.sub Rat.mul Rat.inv Rat.ofScientific in
/-- Witness for C7: a speech-then-silence stream whose emission implies a
prior speech chunk, and a silent chunk leaving `hadSpeech` unchanged. -/
theorem silenceEvent_requires_prior_speech_witness :
    (∃ c' ∈ [speechChunk 0 1000, quietChunk 1000 1000],
      3 * defaultConfig.silenceThreshold ≤ c'.rms) ∧
    (silenceProcess defaultConfig (newSilenceDetector defaultConfig)
        (quietChunk 0 20)).1.hadSpeech =
      (newSilenceDetector defaultConfig).hadSpeech := by
  constructor
  · exact (silenceEvent_requires_prior_speech defaultConfig (by decide)).1
      [speechChunk 0 1000, quietChunk 1000 1000] (quietChunk 2000 1000)
      { startTime := 1000, endTime := 3000, duration := 2000, confirmed := true }
      (by decide)
  · exact (silenceEvent_requires_prior_speech defaultConfig (by decide)).2
      (newSilenceDetector defaultConfig) (quietChunk 0 20) (by decide) (by decide)

/-! ## C5: pure sub-threshold streams end in the 90 percent fallback -/

theorem beepProcess_quiet (cfg : Config) (st : BeepState) (c : AChunk)
    (hbc : beepCand cfg c = false) (ha : st.beepActive = false) :
    (beepProcess cfg st c).1.beepActive = false ∧ (beepProcess cfg st c).2 = none := by
  by_cases hs : c.short = true
  · rw [show beepProcess cfg st c = (st, none) from by rw [beepProcess, if_pos hs]]
    exact ⟨ha, rfl⟩
  · have hred : beepProcess cfg st c = (beepReset st, none) := by
      rw [beepProcess, if_neg hs]
      simp [hbc, ha]
    rw [hred]
    exact ⟨rfl, rfl⟩

theorem silenceProcess_quiet (cfg : Config) (st : SilenceState) (c : AChunk)
    (hth : 0 < cfg.silenceThreshold)
    (hsp : st.speechThreshold = cfg.silenceThreshold * 3)
    (hh : st.hadSpeech = false) (hr : c.rms < cfg.silenceThreshold) :
    (silenceProcess cfg st c).1.hadSpeech = false ∧
    (silenceProcess cfg st c).1.speechThreshold = cfg.silenceThreshold * 3 ∧
    (silenceProcess cfg st c).2 = none := by
  refine ⟨?_, ?_, ?_⟩
  · rw [silence_hadSpeech_step, hh]
    have hns : ¬ (st.speechThreshold ≤ c.rms) := by
      rw [hsp]
      intro hle
      linarith
    simp [hns]
  · rw [silence_speechThreshold_const, hsp]
  · cases hcase : (silenceProcess cfg st c).2 with
    | none => rfl
    | some ev =>
      have := silence_emit_requires cfg st c ev hth hsp hcase
      rw [hh] at this
      exact absurd this (by simp)

theorem processChunk_quiet (cfg : Config) (st : EngState) (c : AChunk)
    (hth : 0 < cfg.silenceThreshold) (hq : EngQuiet cfg st)
    (hr : c.rms < cfg.silenceThreshold) (hbc : beepCand cfg c = false) :
    EngQuiet cfg (processChunk cfg st c) := by
  obtain ⟨hba, hhs, hsp, hfs, hbd, hpf, heb, hdm⟩ := hq
  have hb := beepProcess_quiet cfg st.beep c hbc hba
  have hsi := silenceProcess_quiet cfg st.silence c hth hsp hhs hr
  unfold processChunk
  rcases hbp : beepProcess cfg st.beep c with ⟨bst, bev⟩
  rcases hsp2 : silenceProcess cfg st.silence c with ⟨sst, sev⟩
  rw [hbp] at hb
  rw [hsp2] at hsi
  have hbev : bev = none := hb.2
  have hsev : sev = none := hsi.2.2
  subst hbev hsev
  simp only [hbp, hsp2]
  rw [show ({ st with beep := bst, silence := sst } : EngState).beepDetected =
    st.beepDetected from rfl, hbd]
  exact ⟨hb.1, hsi.1, hsi.2.1, hfs, rfl, hpf, heb, hdm⟩

theorem checkForDecision_quiet (cfg : Config) (st : EngState) (last : ℚ)
    (hbd : st.beepDetected = none) (hpf : st.phraseFound = false)
    (heb : st.expectsBeep = false) (hfs : st.firstSilenceAt = 0) :
    checkForDecision cfg st last = st := by
  unfold checkForDecision
  rw [hbd]
  dsimp only
  rw [if_neg (by simp [hpf]), if_neg (by simp [heb]), if_neg (by simp [hfs])]

/-- A quiet run stays quiet and threads `lastChunkTime` through the loop. -/
theorem engineLoop_quiet (cfg : Config) (hth : 0 < cfg.silenceThreshold) :
    ∀ (chunks : List AChunk) (st : EngState) (last : ℚ), EngQuiet cfg st →
      (∀ c ∈ chunks, c.rms < cfg.silenceThreshold ∧ beepCand cfg c = false) →
      EngQuiet cfg (engineLoop cfg st chunks last).1 ∧
      (engineLoop cfg st chunks last).2 =
        chunks.foldl (fun _ c => c.timestamp + c.duration) last := by
  intro chunks
  induction chunks with
  | nil =>
    intro st last hq _
    exact ⟨hq, rfl⟩
  | cons c rest ih =>
    intro st last hq hc
    have hc1 := hc c (List.mem_cons_self c rest)
    have hq1 := processChunk_quiet cfg st c hth hq hc1.1 hc1.2
    unfold engineLoop
    dsimp only
    have hdm : (processChunk cfg st c).decisionMade = false := by
      rw [(processChunk_decisionMade cfg st c).1]
      exact hq.2.2.2.2.2.2.2
    rw [if_neg (by rw [hdm]; simp)]
    have hcheck : checkForDecision cfg (processChunk cfg st c)
        (c.timestamp + c.duration) = processChunk cfg st c :=
      checkForDecision_quiet cfg _ _ hq1.2.2.2.2.1 hq1.2.2.2.2.2.1
        hq1.2.2.2.2.2.2.1 hq1.2.2.2.1
    rw [hcheck, List.foldl_cons]
    exact ih (processChunk cfg st c) (c.timestamp + c.duration) hq1
      (fun c' h => hc c' (List.mem_cons_of_mem c h))

/-- Claim C5: if every chunk's rms is below SilenceThreshold (so no chunk
classifies as speech) and no chunk meets the beep criteria, the engine (with
no transcript events, the STT-disabled run) returns the fallback Result with
the 90 percent reason and drop time 0.9 x total duration. -/
theorem fallback_on_pure_silence (cfg : Config) (chunks : List AChunk)
    (hth : 0 < cfg.silenceThreshold)
    (hc : ∀ c ∈ chunks, c.rms < cfg.silenceThreshold ∧ beepCand cfg c = false) :
    (engineProcessOpt cfg chunks).map
        (fun r => (r.reason, r.recommendedDropTime)) =
      some (reasonFallback, 9/10 * lastChunkTime chunks) := by
  have hinit : EngQuiet cfg (initEngState cfg) :=
    ⟨rfl, rfl, rfl, rfl, rfl, rfl, rfl, rfl⟩
  obtain ⟨hq, hlast⟩ := engineLoop_quiet cfg hth chunks (initEngState cfg) 0 hinit hc
  unfold engineProcessOpt
  rcases h : engineLoop cfg (initEngState cfg) chunks 0 with ⟨st, last⟩
  rw [h] at hq hlast
  dsimp only at hq hlast ⊢
  obtain ⟨hba, hhs, hsp, hfs, hbd, hpf, heb, hdm⟩ := hq
  rw [if_neg (by rw [hdm]; simp)]
  unfold makeFinalDecision
  rw [hbd]
  dsimp only
  rw [if_neg (by simp [hfs]), if_neg (by simp [hpf])]
  dsimp only
  rw [hlast]
  rfl

unseal Rat.add Rat.sub Rat.mul Rat.inv Rat.ofScientific in
/-- Witness for C5 on a 40 ms pure-silence stream: drop time 36 ms = 0.9 x 40 ms. -/
theorem fallback_on_pure_silence_witness :
    (engineProcessOpt defaultConfig [quietChunk 0 20, quietChunk 20 20]).map
        (fun r => (r.reason, r.recommendedDropTime)) =
      some (reasonFallback, 9/10 * lastChunkTime [quietChunk 0 20, quietChunk 20 20]) :=
  fallback_on_pure_silence defaultConfig [quietChunk 0 20, quietChunk 20 20]
    (by decide) (by decide)

/-! ## C10: unsupported bit depths decode as silence -/

/-- The Go `switch bytesPerSample` has no case for 3 bytes per sample, so
the zero-initialized sample is returned. -/
theorem decodeOne_bps3 (buf : List ℕ) (offset : ℕ) : decodeOne buf 3 offset = 0 := rfl

/-- Claim C10: `OpenWAV` accepts a well-formed RIFF/WAVE file with
BitsPerSample = 24 without error, and `ReadSamples` then returns 0.0 for
every sample: unsupported bit depths are silently decoded as silence rather
than rejected. -/
theorem unsupported_bitDepth_decodes_silence :
    (openWAV demoWav24).isSome = true ∧
    (∀ (bytes : List ℕ) (w : WAVFile) (n : ℕ) (samples : List ℚ),
      openWAV bytes = some w → w.header.bitsPerSample = 24 →
      readSamplesFrom w n = Except.ok samples → ∀ x ∈ samples, x = 0) := by
  constructor
  · decide
  · intro bytes w n samples _ hbits hread x hx
    unfold readSamplesFrom at hread
    rw [hbits] at hread
    dsimp only at hread
    split at hread
    · exact Except.noConfusion hread
    · cases hread
      rw [List.mem_map] at hx
      obtain ⟨i, _, hi⟩ := hx
      rw [decodeOne_bps3, decodeOne_bps3] at hi
      split at hi <;> simp [← hi]

/-- Witness for C10 on the concrete 24-bit file `demoWav24`, whose parsed
form is `demoParsedWav` and whose two decoded samples are 0. -/
theorem unsupported_bitDepth_witness :
    openWAV demoWav24 = some demoParsedWav ∧
    readSamplesFrom demoParsedWav 2 = Except.ok [0, 0] ∧
    ∀ x ∈ [(0 : ℚ), 0], x = 0 :=
  ⟨by decide, by rfl,
   unsupported_bitDepth_decodes_silence.2 demoWav24 demoParsedWav 2 [0, 0]
     (by decide) (by decide) (by rfl)⟩
